import Mathlib

/-!
# Verification of the haystack/canals pipeline engine specification

Shallow embedding of the pipeline engine of this repository:

* `src/canals/pipeline/connections.py` — connection parsing and the
  unambiguous-connection resolver (embedded directly from the source);
* the Pipeline graph store, scheduler/executor and serialization layer —
  the implementation module itself is not present under `src/` (only its
  tests are), so those parts are modelled from the specification and
  flagged `Modelled from the spec:` in their doc comments.

Python strings are modelled as `String` (with `List Char` used where
character-level splitting matters), Python type expressions as the
inductive `PyType`, and Python runtime values as the inductive `Value`.
-/

namespace Haystack

/-- A Python connection-spec string, modelled at character level so that
splitting on the first `.` can be reasoned about. -/
abbrev PyStr := List Char

/-! ## Connection-spec parsing (`parse_connection_name`, connections.py) -/

/-- Split a character list at the first occurrence of `'.'`:
returns the part before and the part after it (which may itself contain
further dots), or `none` when the list has no dot.  This models Python's
`connection.split(".", maxsplit=1)` guarded by `"." in connection`. -/
def splitFirstDot : List Char → Option (List Char × List Char)
  | [] => none
  | c :: rest =>
    if c = '.' then some ([], rest)
    else (splitFirstDot rest).map (fun p => (c :: p.1, p.2))

/-- Embeds `parse_connection_name` from `src/canals/pipeline/connections.py`:
if the string contains a dot, split on the first one into component name
and socket name; otherwise the whole string is the component name and the
socket name is unspecified (`none`). -/
def parse_connection_name (connection : String) : String × Option String :=
  match splitFirstDot connection.toList with
  | some (a, b) => (String.mk a, some (String.mk b))
  | none => (connection, none)

theorem splitFirstDot_eq_none_iff (s : List Char) :
    splitFirstDot s = none ↔ '.' ∉ s := by
  induction s with
  | nil => simp [splitFirstDot]
  | cons c rest ih =>
    by_cases hc : c = '.'
    · subst hc
      simp [splitFirstDot]
    · rw [List.mem_cons, not_or]
      have hne : ¬ '.' = c := fun habs => hc habs.symm
      cases hsr : splitFirstDot rest with
      | none =>
        simp only [splitFirstDot, if_neg hc, hsr, Option.map_none']
        simp [hne, ih.mp hsr]
      | some p =>
        simp only [splitFirstDot, if_neg hc, hsr, Option.map_some']
        constructor
        · intro h; cases h
        · rintro ⟨-, hr⟩
          rw [← ih] at hr
          rw [hr] at hsr
          cases hsr

theorem splitFirstDot_eq_some (s pre post : List Char)
    (h : splitFirstDot s = some (pre, post)) :
    s = pre ++ '.' :: post ∧ '.' ∉ pre := by
  induction s generalizing pre post with
  | nil => simp [splitFirstDot] at h
  | cons c rest ih =>
    by_cases hc : c = '.'
    · subst hc
      simp [splitFirstDot] at h
      obtain ⟨h1, h2⟩ := h
      subst h1; subst h2
      simp
    · cases hsr : splitFirstDot rest with
      | none => simp [splitFirstDot, hc, hsr] at h
      | some p =>
        obtain ⟨a, b⟩ := p
        simp only [splitFirstDot, if_neg hc, hsr, Option.map_some', Option.some_inj] at h
        injection h with hpre hpost
        subst hpre; subst hpost
        obtain ⟨hs, hnp⟩ := ih a b hsr
        subst hs
        refine ⟨rfl, ?_⟩
        rw [List.mem_cons, not_or]
        exact ⟨fun habs => hc habs.symm, hnp⟩

theorem splitFirstDot_append_dot (pre post : List Char) (h : '.' ∉ pre) :
    splitFirstDot (pre ++ '.' :: post) = some (pre, post) := by
  induction pre with
  | nil => simp [splitFirstDot]
  | cons c rest ih =>
    rw [List.mem_cons, not_or] at h
    obtain ⟨h1, h2⟩ := h
    have hc : ¬ c = '.' := fun habs => h1 habs.symm
    simp [splitFirstDot, hc, ih h2]

/-! ## Socket model and type compatibility -/

mutual
/-- A Python type expression as it appears in socket declarations: the
wildcard `Any`, `None` (`NoneType`), a plain class or primitive, a
parametrized generic (structural, component-wise equality), or a `Union`
(`Optional[T]` being `Union[T, None]`).  Argument lists are the mutual
inductive `PyTypeArgs` so that decidable equality can be derived. -/
inductive PyType where
  | any : PyType
  | noneT : PyType
  | prim : String → PyType
  | generic : String → PyTypeArgs → PyType
  | union : PyTypeArgs → PyType
deriving DecidableEq, Repr
inductive PyTypeArgs where
  | nil : PyTypeArgs
  | cons : PyType → PyTypeArgs → PyTypeArgs
deriving DecidableEq, Repr
end

/-- Convert an argument list to a `List` for reuse of list operations. -/
def PyTypeArgs.toList : PyTypeArgs → List PyType
  | .nil => []
  | .cons t ts => t :: ts.toList

/-- An output socket: a name and the collection of types it produces.
The socket dataclasses live in `canals/pipeline/sockets.py`, which is not
under `src/`; the fields are the ones `connections.py` uses. -/
structure OutputSocket where
  name : String
  types : List PyType
deriving DecidableEq, Repr

/-- An input socket: a name, the collection of types it accepts, and the
sender currently connected to it (`none` when the input is free). -/
structure InputSocket where
  name : String
  types : List PyType
  sender : Option String := none
deriving DecidableEq, Repr

/-- Python's `not in_sock.sender`: true when the sender is `None` or the
empty string (string falsiness). -/
def InputSocket.senderFree (s : InputSocket) : Bool :=
  match s.sender with
  | none => true
  | some v => v == ""

/-- The type test inside the candidate filter of
`find_unambiguous_connection` (connections.py line 36):
`Any in in_sock.types or out_sock.types == in_sock.types`. -/
def types_compatible (out_types in_types : List PyType) : Bool :=
  in_types.contains PyType.any || out_types == in_types

/-! ## The connection resolver (`find_unambiguous_connection`) -/

/-- The candidate list built by `find_unambiguous_connection`
(connections.py lines 33–37): all output/input socket pairs in
`itertools.product` order whose input has no sender yet and whose types
pass `types_compatible`. -/
def possible_connections (from_sockets : List OutputSocket)
    (to_sockets : List InputSocket) : List (OutputSocket × InputSocket) :=
  (from_sockets.flatMap fun out_sock =>
      to_sockets.map fun in_sock => (out_sock, in_sock)).filter
    fun p => p.2.senderFree && types_compatible p.1.types p.2.types

/-- The `PipelineConnectError` raised by `find_unambiguous_connection`.
Only the error kind and the two component names are modelled; the
formatted message produced by `_connections_status` carries no information
any claim depends on and is elided. -/
inductive PipelineConnectError where
  | noMatchingConnections (from_node to_node : String)
  | ambiguousConnection (from_node to_node : String)
deriving DecidableEq, Repr

/-- Embeds `find_unambiguous_connection` (connections.py lines 26–68):
empty candidate list ⇒ error; more than one candidate ⇒ narrow to pairs
with identical socket names and error unless exactly one remains; the
returned pair is the head of the candidate list. -/
def find_unambiguous_connection (from_node to_node : String)
    (from_sockets : List OutputSocket) (to_sockets : List InputSocket) :
    Except PipelineConnectError (OutputSocket × InputSocket) :=
  match possible_connections from_sockets to_sockets with
  | [] => .error (.noMatchingConnections from_node to_node)
  | first :: rest =>
    if 1 < (first :: rest).length then
      let name_matches :=
        (first :: rest).filter fun p => p.2.name == p.1.name
      if name_matches.length ≠ 1 then
        .error (.ambiguousConnection from_node to_node)
      else .ok first
    else .ok first

/-! ## Declared types of sockets (spec-modelled) -/

/-- Modelled from the spec: `canals/pipeline/sockets.py` is absent from
`src/`, so the derivation of a socket's `types` collection from its
declared type follows §4.1 — a `Union`'s members with the `None`-typed
slots removed, any other declared type standing alone. -/
def socketTypes : PyType → List PyType
  | .union ts => ts.toList.filter fun t => t != PyType.noneT
  | t => [t]

/-- Modelled from the spec: the input "accepts a wildcard (any) type" —
its declared type is `Any` or a `Union` with an `Any` slot. -/
def acceptsWildcard : PyType → Bool
  | .any => true
  | .union ts => ts.toList.contains PyType.any
  | _ => false

/-- Modelled from the spec (§4.1): compatibility as the spec words it —
the input accepts a wildcard, or the declared types are structurally equal
once the `None`-typed slots of the top-level union are ignored. -/
def spec_compatible (out_type in_type : PyType) : Bool :=
  acceptsWildcard in_type || socketTypes out_type == socketTypes in_type

theorem contains_any_filter_ne_noneT (ts : List PyType) :
    (ts.filter fun t => t != PyType.noneT).contains PyType.any =
      ts.contains PyType.any := by
  induction ts with
  | nil => rfl
  | cons t ts ih =>
    by_cases ht : t = PyType.noneT
    · subst ht
      simp [List.filter_cons, ih]
    · simp [List.filter_cons, ht, ih]

theorem socketTypes_eq_single (t : PyType) (h : ∀ ts, t ≠ PyType.union ts) :
    socketTypes t = [t] := by
  cases t with
  | union ts => exact absurd rfl (h ts)
  | any => rfl
  | noneT => rfl
  | prim s => rfl
  | generic s args => rfl

theorem contains_any_socketTypes (t : PyType) :
    (socketTypes t).contains PyType.any = acceptsWildcard t := by
  cases t with
  | any => rfl
  | noneT => simp [socketTypes, acceptsWildcard]
  | prim s => simp [socketTypes, acceptsWildcard]
  | generic s args => simp [socketTypes, acceptsWildcard]
  | union ts => exact contains_any_filter_ne_noneT ts.toList

theorem senderFree_iff (s : InputSocket) :
    s.senderFree = true ↔ (s.sender = none ∨ s.sender = some "") := by
  unfold InputSocket.senderFree
  cases hs : s.sender with
  | none => simp
  | some v => simp

/-- Helper: the resolver on an empty candidate list. -/
theorem find_unambiguous_connection_nil (from_node to_node : String)
    (from_sockets : List OutputSocket) (to_sockets : List InputSocket)
    (h : possible_connections from_sockets to_sockets = []) :
    find_unambiguous_connection from_node to_node from_sockets to_sockets =
      Except.error (PipelineConnectError.noMatchingConnections from_node to_node) := by
  unfold find_unambiguous_connection
  rw [h]

/-- Helper: the resolver on a non-empty candidate list. -/
theorem find_unambiguous_connection_cons (from_node to_node : String)
    (from_sockets : List OutputSocket) (to_sockets : List InputSocket)
    (first : OutputSocket × InputSocket) (rest : List (OutputSocket × InputSocket))
    (h : possible_connections from_sockets to_sockets = first :: rest) :
    find_unambiguous_connection from_node to_node from_sockets to_sockets =
      (if 1 < (first :: rest).length then
        if ((first :: rest).filter fun p => p.2.name == p.1.name).length ≠ 1 then
          Except.error (PipelineConnectError.ambiguousConnection from_node to_node)
        else Except.ok first
      else Except.ok first) := by
  unfold find_unambiguous_connection
  rw [h]

/-! ## Claim theorems about the connection resolver -/

/-- **C9.** For every connection specification string, parsing splits on
the first `.` only: with a dot present, the part before the first dot is
the component name and everything after it (possibly containing further
dots) is the socket name; with no dot, the whole string is the component
name and the socket name is unspecified. -/
theorem parse_connection_name_spec (s : String) :
    ('.' ∈ s.toList →
      ∃ pre post : List Char, s.toList = pre ++ '.' :: post ∧ '.' ∉ pre ∧
        parse_connection_name s = (String.mk pre, some (String.mk post))) ∧
    ('.' ∉ s.toList → parse_connection_name s = (s, none)) := by
  constructor
  · intro hmem
    cases hsp : splitFirstDot s.toList with
    | none => exact absurd hmem ((splitFirstDot_eq_none_iff s.toList).mp hsp)
    | some p =>
      obtain ⟨pre, post⟩ := p
      obtain ⟨hdec, hpre⟩ := splitFirstDot_eq_some s.toList pre post hsp
      refine ⟨pre, post, hdec, hpre, ?_⟩
      unfold parse_connection_name
      rw [hsp]
  · intro hmem
    unfold parse_connection_name
    rw [(splitFirstDot_eq_none_iff s.toList).mpr hmem]

/-- Witness for C9 at the concrete inputs `"a.b.c"` and `"ab"`. -/
theorem parse_connection_name_spec_witness :
    (∃ pre post : List Char, "a.b.c".toList = pre ++ '.' :: post ∧ '.' ∉ pre ∧
      parse_connection_name "a.b.c" = (String.mk pre, some (String.mk post))) ∧
    parse_connection_name "ab" = ("ab", none) :=
  ⟨(parse_connection_name_spec "a.b.c").1 (by decide),
   (parse_connection_name_spec "ab").2 (by decide)⟩

/-- **C1.** The resolver's type-compatibility test (on the socket `types`
collections derived from the declared types) holds exactly when the input
accepts the wildcard `Any` type or the declared types are structurally
equal with the `None`-typed slots ignored; in particular an output of
declared type `T` is compatible with an input of declared type
`Optional[T]`. -/
theorem connection_type_compatibility_spec (out_type in_type : PyType) :
    (types_compatible (socketTypes out_type) (socketTypes in_type) =
      spec_compatible out_type in_type)
    ∧ (∀ t : PyType, t ≠ PyType.noneT → (∀ ts, t ≠ PyType.union ts) →
        types_compatible (socketTypes t)
          (socketTypes (PyType.union
            (PyTypeArgs.cons t (PyTypeArgs.cons PyType.noneT PyTypeArgs.nil)))) = true) := by
  constructor
  · unfold types_compatible spec_compatible
    rw [contains_any_socketTypes]
  · intro t ht hu
    have h1 : socketTypes t = [t] := socketTypes_eq_single t hu
    have h2 : socketTypes (PyType.union
        (PyTypeArgs.cons t (PyTypeArgs.cons PyType.noneT PyTypeArgs.nil))) = [t] := by
      simp [socketTypes, PyTypeArgs.toList, List.filter_cons, ht]
    rw [h1, h2]
    simp [types_compatible]

/-- Witness for C1: output `int` is compatible with input `Optional[int]`. -/
theorem connection_type_compatibility_witness :
    types_compatible (socketTypes (PyType.prim "int"))
      (socketTypes (PyType.union
        (PyTypeArgs.cons (PyType.prim "int")
          (PyTypeArgs.cons PyType.noneT PyTypeArgs.nil)))) = true :=
  (connection_type_compatibility_spec (PyType.prim "int") PyType.any).2
    (PyType.prim "int") (fun h => PyType.noConfusion h) (fun _ h => PyType.noConfusion h)

/-- The candidate set as C2's words describe it, for comparison with the
code's `possible_connections`: type-compatible pairs whose input is not
claimed by a *different* sender — an input already fed by the sending
node itself is kept. -/
def claimed_candidates (from_node : String) (from_sockets : List OutputSocket)
    (to_sockets : List InputSocket) : List (OutputSocket × InputSocket) :=
  (from_sockets.flatMap fun out_sock =>
      to_sockets.map fun in_sock => (out_sock, in_sock)).filter
    fun p => (p.2.senderFree || p.2.sender == some from_node) &&
      types_compatible p.1.types p.2.types

/-- **C2 counterexample.** An input already fed by the *same* sender is
*not* kept as a candidate by the code: `possible_connections` filters on
`not in_sock.sender`, which excludes an input claimed by any sender,
the same one included — so the candidate set the claim describes differs
from the code's on this input, and re-declaring an existing connection is
not idempotent at the resolver level. -/
theorem resolver_candidate_idempotency_cex :
    possible_connections
        [{ name := "y", types := [PyType.prim "int"] }]
        [{ name := "x", types := [PyType.prim "int"], sender := some "a" }] = []
    ∧ claimed_candidates "a"
        [{ name := "y", types := [PyType.prim "int"] }]
        [{ name := "x", types := [PyType.prim "int"], sender := some "a" }] =
      [({ name := "y", types := [PyType.prim "int"] },
        { name := "x", types := [PyType.prim "int"], sender := some "a" })] := by
  decide

/-- **C2 (amended).** When both socket names are unspecified the candidate
set is the full pairwise product of output and input sockets restricted to
type-compatible pairs whose target input is not already claimed by *any*
sender — including the same sender/output pair, so re-declaring an
existing connection leaves no candidate for that input and (when no other
candidate exists) the resolver raises `PipelineConnectError` instead of
succeeding idempotently. -/
theorem resolver_candidate_set_spec (from_node to_node : String)
    (from_sockets : List OutputSocket) (to_sockets : List InputSocket) :
    (∀ out_sock in_sock,
      (out_sock, in_sock) ∈ possible_connections from_sockets to_sockets ↔
        out_sock ∈ from_sockets ∧ in_sock ∈ to_sockets ∧
        (in_sock.sender = none ∨ in_sock.sender = some "") ∧
        types_compatible out_sock.types in_sock.types = true)
    ∧ ((∀ in_sock ∈ to_sockets, in_sock.senderFree = false) →
        find_unambiguous_connection from_node to_node from_sockets to_sockets =
          Except.error (PipelineConnectError.noMatchingConnections from_node to_node)) := by
  constructor
  · intro o i
    simp only [possible_connections, List.mem_filter, List.mem_flatMap, List.mem_map,
      Prod.mk.injEq, Bool.and_eq_true]
    constructor
    · rintro ⟨⟨o', ho', i', hi', h1, h2⟩, hfree, hcompat⟩
      subst h1; subst h2
      exact ⟨ho', hi', (senderFree_iff _).mp hfree, hcompat⟩
    · rintro ⟨ho, hi, hsend, hcompat⟩
      exact ⟨⟨o, ho, i, hi, rfl, rfl⟩, (senderFree_iff i).mpr hsend, hcompat⟩
  · intro hall
    have hempty : possible_connections from_sockets to_sockets = [] := by
      rw [possible_connections, List.filter_eq_nil_iff]
      intro p hp
      simp only [List.mem_flatMap, List.mem_map] at hp
      obtain ⟨o, ho, i, hi, heq⟩ := hp
      subst heq
      simp [hall i hi]
    exact find_unambiguous_connection_nil _ _ _ _ hempty

/-- Witness for C2 (amended) at concrete sockets: a free, type-matching
pair is a candidate, and a fully-claimed receiver yields the
no-matching-connections error. -/
theorem resolver_candidate_set_witness :
    (({ name := "y", types := [PyType.prim "int"] } : OutputSocket),
      ({ name := "x", types := [PyType.prim "int"], sender := none } : InputSocket)) ∈
      possible_connections
        [{ name := "y", types := [PyType.prim "int"] }]
        [{ name := "x", types := [PyType.prim "int"], sender := none }]
    ∧ find_unambiguous_connection "a" "b"
        [{ name := "y", types := [PyType.prim "int"] }]
        [{ name := "x", types := [PyType.prim "int"], sender := some "other" }] =
      Except.error (PipelineConnectError.noMatchingConnections "a" "b") :=
  ⟨((resolver_candidate_set_spec "a" "b"
      [{ name := "y", types := [PyType.prim "int"] }]
      [{ name := "x", types := [PyType.prim "int"], sender := none }]).1 _ _).mpr
      (by decide),
   (resolver_candidate_set_spec "a" "b"
      [{ name := "y", types := [PyType.prim "int"] }]
      [{ name := "x", types := [PyType.prim "int"], sender := some "other" }]).2
      (by decide)⟩

/-- **C3.** The resolver returns a socket pairing exactly when one
candidate survives filtering or, with several candidates, narrowing to
identically-named pairs leaves exactly one; in every other case it returns
a `PipelineConnectError` — in particular, two or more equally-typed,
differently-named candidate pairs always fail with the ambiguity error. -/
theorem resolver_disambiguation_spec (from_node to_node : String)
    (from_sockets : List OutputSocket) (to_sockets : List InputSocket) :
    ((∃ pair, find_unambiguous_connection from_node to_node from_sockets to_sockets =
        Except.ok pair) ↔
      ((possible_connections from_sockets to_sockets).length = 1 ∨
        (1 < (possible_connections from_sockets to_sockets).length ∧
          ((possible_connections from_sockets to_sockets).filter
            (fun p => p.2.name == p.1.name)).length = 1)))
    ∧ ((∀ pair, find_unambiguous_connection from_node to_node from_sockets to_sockets ≠
          Except.ok pair) →
        ∃ e, find_unambiguous_connection from_node to_node from_sockets to_sockets =
          Except.error e)
    ∧ (2 ≤ (possible_connections from_sockets to_sockets).length →
        (∀ p ∈ possible_connections from_sockets to_sockets, p.1.name ≠ p.2.name) →
        find_unambiguous_connection from_node to_node from_sockets to_sockets =
          Except.error (PipelineConnectError.ambiguousConnection from_node to_node)) := by
  refine ⟨?_, ?_, ?_⟩
  · rcases hpc : possible_connections from_sockets to_sockets with - | ⟨first, rest⟩
    · rw [find_unambiguous_connection_nil _ _ _ _ hpc]
      simp
    · rcases rest with - | ⟨r2, rs⟩
      · rw [find_unambiguous_connection_cons _ _ _ _ _ _ hpc]
        simp
      · rw [find_unambiguous_connection_cons _ _ _ _ _ _ hpc]
        by_cases hnm : ((first :: r2 :: rs).filter
            fun p => p.2.name == p.1.name).length = 1
        · rw [if_pos (by simp), if_neg (fun h => h hnm)]
          simp only [List.length_cons]
          constructor
          · intro
            exact Or.inr ⟨by omega, hnm⟩
          · intro
            exact ⟨first, rfl⟩
        · rw [if_pos (by simp), if_pos hnm]
          simp only [List.length_cons]
          constructor
          · rintro ⟨pair, hpair⟩
            cases hpair
          · rintro (h | ⟨-, h⟩)
            · omega
            · exact absurd h hnm
  · intro hne
    cases hf : find_unambiguous_connection from_node to_node from_sockets to_sockets with
    | ok pair => exact absurd hf (hne pair)
    | error e => exact ⟨e, rfl⟩
  · intro hlen hnames
    rcases hpc : possible_connections from_sockets to_sockets with - | ⟨first, rest⟩
    · rw [hpc] at hlen
      simp at hlen
    · rcases rest with - | ⟨r2, rs⟩
      · rw [hpc] at hlen
        simp at hlen
      · rw [find_unambiguous_connection_cons _ _ _ _ _ _ hpc]
        have hfilter : ((first :: r2 :: rs).filter
            fun p => p.2.name == p.1.name) = [] := by
          rw [List.filter_eq_nil_iff]
          intro p hp
          have := hnames p (hpc ▸ hp)
          simp only [beq_iff_eq]
          exact fun habs => this habs.symm
        rw [if_pos (by simp), if_pos (by rw [hfilter]; simp)]

/-- Witness for C3: two equally-typed, differently-named pairs yield the
ambiguity error. -/
theorem resolver_disambiguation_witness :
    find_unambiguous_connection "comp1" "comp2"
      [{ name := "out1", types := [PyType.prim "int"] },
       { name := "out2", types := [PyType.prim "int"] }]
      [{ name := "in1", types := [PyType.prim "int"], sender := none },
       { name := "in2", types := [PyType.prim "int"], sender := none }] =
      Except.error (PipelineConnectError.ambiguousConnection "comp1" "comp2") :=
  (resolver_disambiguation_spec "comp1" "comp2"
    [{ name := "out1", types := [PyType.prim "int"] },
     { name := "out2", types := [PyType.prim "int"] }]
    [{ name := "in1", types := [PyType.prim "int"], sender := none },
     { name := "in2", types := [PyType.prim "int"], sender := none }]).2.2
    (by decide) (by decide)

/-! ## Runtime values -/

/-- A Python runtime value as it flows between components.  The engine
never inspects values beyond presence, so a small universe suffices. -/
inductive Value where
  | intV : Int → Value
  | strV : String → Value
  | boolV : Bool → Value
  | noneV : Value
deriving DecidableEq, Repr

/-- The `PipelineError` kinds raised by the graph store and by
deserialization: duplicate component name, already-owned instance,
malformed serialized graph.  Each constructor carries the offending
entry. -/
inductive PipelineError where
  | duplicateName (name : String)
  | alreadyOwned (name : String)
  | missingComponentType (component : String)
  | unresolvedComponentType (component typeName : String)
  | missingSender (senderless : Option String)
  | missingReceiver (sender : String)
  | unqualifiedConnection (endpoint : String)
deriving DecidableEq, Repr

/-! ## Serialization (spec-modelled: `Pipeline.to_dict` / `from_dict`) -/

/-- Modelled from the spec (§4.3): the serialized view of one component —
its import-path type name and its init parameters. -/
structure SerComponent where
  typeName : String
  initParameters : List (String × Value)
deriving DecidableEq, Repr

/-- Modelled from the spec (§3, §4.3): the pipeline graph as the
serialization layer sees it — metadata, `max_loops_allowed`, named
components, and connections as ((sender component, output socket),
(receiver component, input socket)) pairs.  Live component instances are
deliberately outside this view (the round-trip claim excludes instance
identity). -/
structure PipelineGraph where
  metadata : List (String × Value)
  max_loops_allowed : Nat
  components : List (String × SerComponent)
  connections : List ((String × String) × (String × String))
deriving DecidableEq, Repr

/-- One entry of the serialized `components` mapping; a missing `type` key
is modelled as `none`. -/
structure ComponentDict where
  typeName : Option String
  initParameters : List (String × Value)
deriving DecidableEq, Repr

/-- One entry of the serialized `connections` list; a missing `sender` or
`receiver` key is modelled as `none`. -/
structure ConnectionDict where
  sender : Option String
  receiver : Option String
deriving DecidableEq, Repr

/-- The persisted structure `{metadata, max_loops_allowed,
components: {name: {type, init_parameters}}, connections:
[{sender, receiver}]}`. -/
structure PipelineDict where
  metadata : List (String × Value)
  max_loops_allowed : Nat
  components : List (String × ComponentDict)
  connections : List ConnectionDict
deriving DecidableEq, Repr

/-- Modelled from the spec: `Pipeline.to_dict` (absent from `src/`) emits
the persisted structure, qualifying each connection endpoint as
`"component.socket"`. -/
def to_dict (g : PipelineGraph) : PipelineDict where
  metadata := g.metadata
  max_loops_allowed := g.max_loops_allowed
  components := g.components.map fun p =>
    (p.1, { typeName := some p.2.typeName, initParameters := p.2.initParameters })
  connections := g.connections.map fun c =>
    { sender := some (c.1.1 ++ "." ++ c.1.2), receiver := some (c.2.1 ++ "." ++ c.2.2) }

/-- Modelled from the spec: deserialization of the `components` mapping —
a missing `type` key fails naming the component, and a type name the
registry cannot resolve to a constructible implementation fails naming
component and type. -/
def fromDictComponents (registry : String → Bool) :
    List (String × ComponentDict) → Except PipelineError (List (String × SerComponent))
  | [] => .ok []
  | (name, ⟨none, _⟩) :: _ => .error (.missingComponentType name)
  | (name, ⟨some t, ip⟩) :: rest =>
    if registry t then
      (fromDictComponents registry rest).map fun comps =>
        (name, { typeName := t, initParameters := ip }) :: comps
    else .error (.unresolvedComponentType name t)

/-- Modelled from the spec: deserialization of the `connections` list —
an entry missing its `sender` or `receiver` key fails immediately, naming
the offending entry; endpoints are split with `parse_connection_name`.
An endpoint without an explicit socket cannot be re-resolved at this
layer (the implementation would consult the connection resolver, which
needs socket declarations the serialized form does not carry). -/
def fromDictConnections :
    List ConnectionDict → Except PipelineError (List ((String × String) × (String × String)))
  | [] => .ok []
  | ⟨none, r⟩ :: _ => .error (.missingSender r)
  | ⟨some s, none⟩ :: _ => .error (.missingReceiver s)
  | ⟨some s, some r⟩ :: rest =>
    match parse_connection_name s, parse_connection_name r with
    | (sc, some ss), (rc, some rs) =>
      (fromDictConnections rest).map fun conns => ((sc, ss), (rc, rs)) :: conns
    | (_, none), _ => .error (.unqualifiedConnection s)
    | _, (_, none) => .error (.unqualifiedConnection r)

/-- Modelled from the spec: `Pipeline.from_dict` — components first, then
connections, then the graph-level configuration is carried over. -/
def from_dict (registry : String → Bool) (d : PipelineDict) :
    Except PipelineError PipelineGraph :=
  match fromDictComponents registry d.components with
  | .error e => .error e
  | .ok comps =>
    match fromDictConnections d.connections with
    | .error e => .error e
    | .ok conns =>
      .ok { metadata := d.metadata, max_loops_allowed := d.max_loops_allowed,
            components := comps, connections := conns }

theorem parse_qualified (a b : String) (h : '.' ∉ a.toList) :
    parse_connection_name (a ++ "." ++ b) = (a, some b) := by
  unfold parse_connection_name
  have hlist : (a ++ "." ++ b).toList = a.toList ++ '.' :: b.toList := by
    show (a ++ "." ++ b).data = a.data ++ '.' :: b.data
    simp [String.data_append]
  rw [hlist, splitFirstDot_append_dot _ _ h]
  rfl

theorem fromDictComponents_roundtrip (registry : String → Bool)
    (comps : List (String × SerComponent))
    (hreg : ∀ p ∈ comps, registry p.2.typeName = true) :
    fromDictComponents registry (comps.map fun p =>
      (p.1, { typeName := some p.2.typeName, initParameters := p.2.initParameters })) =
      Except.ok comps := by
  induction comps with
  | nil => rfl
  | cons p rest ih =>
    obtain ⟨name, c⟩ := p
    simp only [List.map_cons, fromDictComponents]
    rw [if_pos (hreg _ (List.mem_cons_self _ _)), ih fun q hq => hreg q (List.mem_cons_of_mem _ hq)]
    rfl

theorem fromDictConnections_roundtrip
    (conns : List ((String × String) × (String × String)))
    (hdots : ∀ c ∈ conns, '.' ∉ c.1.1.toList ∧ '.' ∉ c.2.1.toList) :
    fromDictConnections (conns.map fun c =>
      { sender := some (c.1.1 ++ "." ++ c.1.2), receiver := some (c.2.1 ++ "." ++ c.2.2) }) =
      Except.ok conns := by
  induction conns with
  | nil => rfl
  | cons c rest ih =>
    obtain ⟨hd1, hd2⟩ := hdots c (List.mem_cons_self _ _)
    simp only [List.map_cons, fromDictConnections]
    rw [parse_qualified _ _ hd1, parse_qualified _ _ hd2,
      ih fun q hq => hdots q (List.mem_cons_of_mem _ hq)]
    rfl

/-- **C5.** Round trip: for every constructed pipeline graph whose
component types the registry can resolve and whose component names are
dot-free, `from_dict (to_dict g)` reproduces the graph — same component
names, types, init parameters, metadata, `max_loops_allowed` and
connection sender/receiver pairs (instance identity is outside this
serialized view). -/
theorem from_dict_to_dict_roundtrip (registry : String → Bool) (g : PipelineGraph)
    (hreg : ∀ p ∈ g.components, registry p.2.typeName = true)
    (hdots : ∀ c ∈ g.connections, '.' ∉ c.1.1.toList ∧ '.' ∉ c.2.1.toList) :
    from_dict registry (to_dict g) = Except.ok g := by
  unfold from_dict to_dict
  rw [fromDictComponents_roundtrip registry g.components hreg,
    fromDictConnections_roundtrip g.connections hdots]

/-- Witness for C5: the three-component pipeline of the serialization
tests round-trips. -/
theorem from_dict_to_dict_roundtrip_witness :
    from_dict
      (fun t => t == "haystack.testing.sample_components.add_value.AddFixedValue" ||
        t == "haystack.testing.sample_components.double.Double")
      (to_dict
        { metadata := [("test", Value.strV "test")],
          max_loops_allowed := 42,
          components :=
            [("add_two",
              { typeName := "haystack.testing.sample_components.add_value.AddFixedValue",
                initParameters := [("add", Value.intV 2)] }),
             ("add_default",
              { typeName := "haystack.testing.sample_components.add_value.AddFixedValue",
                initParameters := [("add", Value.intV 1)] }),
             ("double",
              { typeName := "haystack.testing.sample_components.double.Double",
                initParameters := [] })],
          connections :=
            [(("add_two", "result"), ("double", "value")),
             (("double", "value"), ("add_default", "value"))] }) =
      Except.ok
        { metadata := [("test", Value.strV "test")],
          max_loops_allowed := 42,
          components :=
            [("add_two",
              { typeName := "haystack.testing.sample_components.add_value.AddFixedValue",
                initParameters := [("add", Value.intV 2)] }),
             ("add_default",
              { typeName := "haystack.testing.sample_components.add_value.AddFixedValue",
                initParameters := [("add", Value.intV 1)] }),
             ("double",
              { typeName := "haystack.testing.sample_components.double.Double",
                initParameters := [] })],
          connections :=
            [(("add_two", "result"), ("double", "value")),
             (("double", "value"), ("add_default", "value"))] } :=
  from_dict_to_dict_roundtrip _ _ (by decide) (by decide)

theorem fromDictComponents_ok_types (registry : String → Bool)
    (l : List (String × ComponentDict)) (cs : List (String × SerComponent))
    (h : fromDictComponents registry l = Except.ok cs) :
    ∀ p ∈ l, ∃ t, p.2.typeName = some t ∧ registry t = true := by
  induction l generalizing cs with
  | nil => intro p hp; cases hp
  | cons hd rest ih =>
    obtain ⟨name, tn, ip⟩ := hd
    intro p hp
    cases tn with
    | none => simp only [fromDictComponents] at h; cases h
    | some t =>
      simp only [fromDictComponents] at h
      by_cases hr : registry t
      · rw [if_pos hr] at h
        rcases List.mem_cons.mp hp with hp1 | hp2
        · subst hp1; exact ⟨t, rfl, hr⟩
        · cases hrest : fromDictComponents registry rest with
          | error e => rw [hrest] at h; cases h
          | ok cs2 => exact ih cs2 hrest p hp2
      · rw [if_neg hr] at h; cases h

theorem fromDictComponents_missingType (registry : String → Bool)
    (l : List (String × ComponentDict)) (name : String)
    (h : fromDictComponents registry l = Except.error (PipelineError.missingComponentType name)) :
    ∃ cd, (name, cd) ∈ l ∧ cd.typeName = none := by
  induction l with
  | nil => cases h
  | cons hd rest ih =>
    obtain ⟨hname, tn, ip⟩ := hd
    cases tn with
    | none =>
      simp only [fromDictComponents] at h
      injection h with he
      injection he with hn
      subst hn
      exact ⟨⟨none, ip⟩, List.mem_cons_self _ _, rfl⟩
    | some t =>
      simp only [fromDictComponents] at h
      by_cases hr : registry t
      · rw [if_pos hr] at h
        cases hrest : fromDictComponents registry rest with
        | error e =>
          rw [hrest] at h
          injection h with he
          obtain ⟨cd2, hmem, hnone⟩ := ih (by rw [hrest, he])
          exact ⟨cd2, List.mem_cons_of_mem _ hmem, hnone⟩
        | ok cs2 => rw [hrest] at h; cases h
      · rw [if_neg hr] at h
        injection h with he
        cases he

theorem fromDictComponents_unresolved (registry : String → Bool)
    (l : List (String × ComponentDict)) (name t : String)
    (h : fromDictComponents registry l =
      Except.error (PipelineError.unresolvedComponentType name t)) :
    ∃ cd, (name, cd) ∈ l ∧ cd.typeName = some t ∧ registry t = false := by
  induction l with
  | nil => cases h
  | cons hd rest ih =>
    obtain ⟨hname, tn, ip⟩ := hd
    cases tn with
    | none =>
      simp only [fromDictComponents] at h
      injection h with he
      cases he
    | some t2 =>
      simp only [fromDictComponents] at h
      by_cases hr : registry t2
      · rw [if_pos hr] at h
        cases hrest : fromDictComponents registry rest with
        | error e =>
          rw [hrest] at h
          injection h with he
          obtain ⟨cd2, hmem, hsome, hreg⟩ := ih (by rw [hrest, he])
          exact ⟨cd2, List.mem_cons_of_mem _ hmem, hsome, hreg⟩
        | ok cs2 => rw [hrest] at h; cases h
      · rw [if_neg hr] at h
        injection h with he
        injection he with h1 h2
        subst h1; subst h2
        exact ⟨⟨some t2, ip⟩, List.mem_cons_self _ _, rfl, by simpa using hr⟩

theorem fromDictComponents_error_kinds (registry : String → Bool)
    (l : List (String × ComponentDict)) (e : PipelineError)
    (h : fromDictComponents registry l = Except.error e) :
    (∃ n, e = PipelineError.missingComponentType n) ∨
      (∃ n t, e = PipelineError.unresolvedComponentType n t) := by
  induction l with
  | nil => cases h
  | cons hd rest ih =>
    obtain ⟨hname, tn, ip⟩ := hd
    cases tn with
    | none =>
      simp only [fromDictComponents] at h
      injection h with he
      exact Or.inl ⟨hname, he.symm⟩
    | some t =>
      simp only [fromDictComponents] at h
      by_cases hr : registry t
      · rw [if_pos hr] at h
        cases hrest : fromDictComponents registry rest with
        | error e2 =>
          rw [hrest] at h
          injection h with he
          exact ih (by rw [hrest, he])
        | ok cs2 => rw [hrest] at h; cases h
      · rw [if_neg hr] at h
        injection h with he
        exact Or.inr ⟨hname, t, he.symm⟩

theorem fromDictConnections_ok_keys
    (l : List ConnectionDict) (cs : List ((String × String) × (String × String)))
    (h : fromDictConnections l = Except.ok cs) :
    ∀ c ∈ l, c.sender.isSome ∧ c.receiver.isSome := by
  induction l generalizing cs with
  | nil => intro c hc; cases hc
  | cons hd rest ih =>
    intro c hc
    obtain ⟨sn, rn⟩ := hd
    cases sn with
    | none => simp only [fromDictConnections] at h; cases h
    | some s =>
      cases rn with
      | none => simp only [fromDictConnections] at h; cases h
      | some r =>
        simp only [fromDictConnections] at h
        rcases List.mem_cons.mp hc with hc1 | hc2
        · subst hc1; exact ⟨rfl, rfl⟩
        · rcases hps : parse_connection_name s with ⟨sc, _ | ss⟩ <;>
            rcases hpr : parse_connection_name r with ⟨rc, _ | rs⟩ <;>
              rw [hps, hpr] at h
          · cases h
          · cases h
          · cases h
          · cases hrest : fromDictConnections rest with
            | error e => rw [hrest] at h; cases h
            | ok cs2 => exact ih cs2 hrest c hc2

theorem fromDictConnections_missingSender
    (l : List ConnectionDict) (r : Option String)
    (h : fromDictConnections l = Except.error (PipelineError.missingSender r)) :
    ({ sender := none, receiver := r } : ConnectionDict) ∈ l := by
  induction l with
  | nil => cases h
  | cons hd rest ih =>
    obtain ⟨sn, rn⟩ := hd
    cases sn with
    | none =>
      simp only [fromDictConnections] at h
      injection h with he
      injection he with hrcv
      subst hrcv
      exact List.mem_cons_self _ _
    | some s =>
      cases rn with
      | none =>
        simp only [fromDictConnections] at h
        injection h with he
        cases he
      | some rv =>
        simp only [fromDictConnections] at h
        rcases hps : parse_connection_name s with ⟨sc, _ | ss⟩ <;>
          rcases hpr : parse_connection_name rv with ⟨rc, _ | rs⟩ <;>
            rw [hps, hpr] at h
        · injection h with he; cases he
        · injection h with he; cases he
        · injection h with he; cases he
        · cases hrest : fromDictConnections rest with
          | error e =>
            rw [hrest] at h
            injection h with he
            exact List.mem_cons_of_mem _ (ih (by rw [hrest, he]))
          | ok cs2 => rw [hrest] at h; cases h

theorem fromDictConnections_missingReceiver
    (l : List ConnectionDict) (s : String)
    (h : fromDictConnections l = Except.error (PipelineError.missingReceiver s)) :
    ({ sender := some s, receiver := none } : ConnectionDict) ∈ l := by
  induction l with
  | nil => cases h
  | cons hd rest ih =>
    obtain ⟨sn, rn⟩ := hd
    cases sn with
    | none =>
      simp only [fromDictConnections] at h
      injection h with he
      cases he
    | some sv =>
      cases rn with
      | none =>
        simp only [fromDictConnections] at h
        injection h with he
        injection he with hsv
        subst hsv
        exact List.mem_cons_self _ _
      | some rv =>
        simp only [fromDictConnections] at h
        rcases hps : parse_connection_name sv with ⟨sc, _ | ss⟩ <;>
          rcases hpr : parse_connection_name rv with ⟨rc, _ | rs⟩ <;>
            rw [hps, hpr] at h
        · injection h with he; cases he
        · injection h with he; cases he
        · injection h with he; cases he
        · cases hrest : fromDictConnections rest with
          | error e =>
            rw [hrest] at h
            injection h with he
            exact List.mem_cons_of_mem _ (ih (by rw [hrest, he]))
          | ok cs2 => rw [hrest] at h; cases h

theorem fromDictConnections_error_kinds
    (l : List ConnectionDict) (e : PipelineError)
    (h : fromDictConnections l = Except.error e) :
    (∃ r, e = PipelineError.missingSender r) ∨
      (∃ s, e = PipelineError.missingReceiver s) ∨
      (∃ s, e = PipelineError.unqualifiedConnection s) := by
  induction l with
  | nil => cases h
  | cons hd rest ih =>
    obtain ⟨sn, rn⟩ := hd
    cases sn with
    | none =>
      simp only [fromDictConnections] at h
      injection h with he
      exact Or.inl ⟨rn, he.symm⟩
    | some s =>
      cases rn with
      | none =>
        simp only [fromDictConnections] at h
        injection h with he
        exact Or.inr (Or.inl ⟨s, he.symm⟩)
      | some rv =>
        simp only [fromDictConnections] at h
        rcases hps : parse_connection_name s with ⟨sc, _ | ss⟩ <;>
          rcases hpr : parse_connection_name rv with ⟨rc, _ | rs⟩ <;>
            rw [hps, hpr] at h
        · injection h with he; exact Or.inr (Or.inr ⟨s, he.symm⟩)
        · injection h with he; exact Or.inr (Or.inr ⟨s, he.symm⟩)
        · injection h with he; exact Or.inr (Or.inr ⟨rv, he.symm⟩)
        · cases hrest : fromDictConnections rest with
          | error e2 =>
            rw [hrest] at h
            injection h with he
            exact ih (by rw [hrest, he])
          | ok cs2 => rw [hrest] at h; cases h

/-- **C8.** `from_dict` fails with a descriptive error when a component
entry's `type` key is missing or cannot be resolved to a constructible
implementation, and fails, naming the offending entry, when a connection
entry is missing its `sender` or `receiver` key: deserialization succeeds
only when no such defect exists, and each of those errors points at an
entry of the input actually exhibiting the defect. -/
theorem from_dict_error_spec (registry : String → Bool) (d : PipelineDict) :
    ((∃ g, from_dict registry d = Except.ok g) →
      (∀ p ∈ d.components, ∃ t, p.2.typeName = some t ∧ registry t = true) ∧
      (∀ c ∈ d.connections, c.sender.isSome ∧ c.receiver.isSome))
    ∧ (∀ name, from_dict registry d = Except.error (PipelineError.missingComponentType name) →
        ∃ cd, (name, cd) ∈ d.components ∧ cd.typeName = none)
    ∧ (∀ name t,
        from_dict registry d = Except.error (PipelineError.unresolvedComponentType name t) →
        ∃ cd, (name, cd) ∈ d.components ∧ cd.typeName = some t ∧ registry t = false)
    ∧ (∀ r, from_dict registry d = Except.error (PipelineError.missingSender r) →
        ({ sender := none, receiver := r } : ConnectionDict) ∈ d.connections)
    ∧ (∀ s, from_dict registry d = Except.error (PipelineError.missingReceiver s) →
        ({ sender := some s, receiver := none } : ConnectionDict) ∈ d.connections) := by
  unfold from_dict
  cases hcomp : fromDictComponents registry d.components with
  | error e =>
    refine ⟨?_, ?_, ?_, ?_, ?_⟩
    · rintro ⟨g, hg⟩; cases hg
    · intro name he
      injection he with he
      exact fromDictComponents_missingType _ _ _ (by rw [hcomp, he])
    · intro name t he
      injection he with he
      exact fromDictComponents_unresolved _ _ _ _ (by rw [hcomp, he])
    · intro r he
      injection he with he
      rcases fromDictComponents_error_kinds _ _ _ hcomp with ⟨n, hn⟩ | ⟨n, t, hn⟩ <;>
        rw [hn] at he <;> cases he
    · intro s he
      injection he with he
      rcases fromDictComponents_error_kinds _ _ _ hcomp with ⟨n, hn⟩ | ⟨n, t, hn⟩ <;>
        rw [hn] at he <;> cases he
  | ok comps =>
    cases hconn : fromDictConnections d.connections with
    | error e =>
      refine ⟨?_, ?_, ?_, ?_, ?_⟩
      · rintro ⟨g, hg⟩; cases hg
      · intro name he
        injection he with he
        rcases fromDictConnections_error_kinds _ _ hconn with ⟨r, hn⟩ | ⟨s, hn⟩ | ⟨s, hn⟩ <;>
          rw [hn] at he <;> cases he
      · intro name t he
        injection he with he
        rcases fromDictConnections_error_kinds _ _ hconn with ⟨r, hn⟩ | ⟨s, hn⟩ | ⟨s, hn⟩ <;>
          rw [hn] at he <;> cases he
      · intro r he
        injection he with he
        exact fromDictConnections_missingSender _ _ (by rw [hconn, he])
      · intro s he
        injection he with he
        exact fromDictConnections_missingReceiver _ _ (by rw [hconn, he])
    | ok conns =>
      refine ⟨?_, ?_, ?_, ?_, ?_⟩
      · intro hok
        exact ⟨fromDictComponents_ok_types _ _ _ hcomp, fromDictConnections_ok_keys _ _ hconn⟩
      · intro name he; cases he
      · intro name t he; cases he
      · intro r he; cases he
      · intro s he; cases he

/-- Witness for C8 at concrete malformed dicts: a component entry without
a `type` key, and a connection entry without a `sender` key, mirroring the
deserialization tests. -/
theorem from_dict_error_spec_witness :
    (∃ cd, ("add_two", cd) ∈
        [("add_two",
          ({ typeName := none, initParameters := [("add", Value.intV 2)] } : ComponentDict))] ∧
        cd.typeName = none)
    ∧ ({ sender := none, receiver := some "some.receiver" } : ConnectionDict) ∈
        [({ sender := none, receiver := some "some.receiver" } : ConnectionDict)] :=
  ⟨(from_dict_error_spec (fun _ => false)
      { metadata := [], max_loops_allowed := 100,
        components :=
          [("add_two", { typeName := none, initParameters := [("add", Value.intV 2)] })],
        connections := [] }).2.1 "add_two" rfl,
   (from_dict_error_spec (fun _ => false)
      { metadata := [], max_loops_allowed := 100,
        components := [],
        connections := [{ sender := none, receiver := some "some.receiver" }] }).2.2.2.1
      (some "some.receiver") rfl⟩

/-! ## Graph store: `add_component` ownership (spec-modelled) -/

/-- Modelled from the spec (§9): a component instance carrying the
owner-graph-id stamp (`__haystack_added_to_pipeline__` in the tests);
`none` until the instance is added to some graph store. -/
structure ComponentInstance where
  owner : Option Nat := none
deriving DecidableEq, Repr

/-- Modelled from the spec: the part of the graph store that
`add_component` consults — the store's identity and the names already
registered. -/
structure GraphStore where
  pid : Nat
  componentNames : List String := []
deriving DecidableEq, Repr

/-- Modelled from the spec (§4.3): `add_component(name, instance)` fails
on a duplicate name, or when the instance already belongs to a graph
store (ownership is exclusive — one graph at a time); on success the
store registers the name and the returned instance is stamped with this
store's identity. -/
def add_component (g : GraphStore) (name : String) (inst : ComponentInstance) :
    Except PipelineError (GraphStore × ComponentInstance) :=
  if g.componentNames.contains name then .error (.duplicateName name)
  else if inst.owner.isSome then .error (.alreadyOwned name)
  else .ok ({ g with componentNames := g.componentNames ++ [name] },
            { inst with owner := some g.pid })

/-- **C7.** `add_component` fails whenever the name already exists in the
graph or the instance has already been added to another graph store, and
after a successful add the stamped instance can no longer be added to a
second, different pipeline without an error. -/
theorem add_component_exclusive_ownership (g : GraphStore) (name : String)
    (inst : ComponentInstance) :
    ((g.componentNames.contains name = true ∨
        (∃ q, inst.owner = some q ∧ q ≠ g.pid)) →
      ∃ e, add_component g name inst = Except.error e)
    ∧ (∀ g2 inst2 gnew name2, add_component g name inst = Except.ok (gnew, inst2) →
        g2.pid ≠ g.pid →
        ∃ e, add_component g2 name2 inst2 = Except.error e) := by
  constructor
  · intro hcase
    unfold add_component
    by_cases hdup : g.componentNames.contains name
    · rw [if_pos hdup]
      exact ⟨_, rfl⟩
    · rw [if_neg hdup]
      rcases hcase with hc | ⟨q, hq, -⟩
      · exact absurd hc hdup
      · rw [if_pos (by rw [hq]; rfl)]
        exact ⟨_, rfl⟩
  · intro g2 inst2 gnew name2 hok hpid
    unfold add_component at hok ⊢
    by_cases hdup : g.componentNames.contains name
    · rw [if_pos hdup] at hok; cases hok
    · rw [if_neg hdup] at hok
      by_cases howned : inst.owner.isSome
      · rw [if_pos howned] at hok; cases hok
      · rw [if_neg howned] at hok
        injection hok with hpair
        injection hpair with hg hi
        by_cases hdup2 : g2.componentNames.contains name2
        · rw [if_pos hdup2]
          exact ⟨_, rfl⟩
        · rw [if_neg hdup2, if_pos (by rw [← hi]; rfl)]
          exact ⟨_, rfl⟩

/-- Witness for C7: an instance successfully added to store 0 is rejected
by store 1. -/
theorem add_component_exclusive_ownership_witness :
    ∃ e, add_component { pid := 1, componentNames := [] } "comp_b"
      { owner := some 0 } = Except.error e :=
  (add_component_exclusive_ownership { pid := 0, componentNames := [] } "comp_a"
    { owner := none }).2 { pid := 1, componentNames := [] }
    { owner := some 0 } { pid := 0, componentNames := ["comp_a"] } "comp_b"
    rfl (by decide)

/-! ## Scheduler / executor (spec-modelled) -/

/-- The result of one invocation of a component's execution operation: a
name→value mapping, a non-mapping value (contract violation), or a raised
exception. -/
inductive CompResult where
  | mapping : List (String × Value) → CompResult
  | nonMapping : Value → CompResult
  | raised : String → CompResult

/-- Modelled from the spec (§2, §6): a component as the engine sees it —
mandatory input socket names, optional input sockets with their default
values, output socket names, and the opaque execution operation. -/
structure RunComponent where
  mandatoryInputs : List String
  optionalInputs : List (String × Value)
  outputs : List String
  exec : List (String × Value) → CompResult

/-- Modelled from the spec: the pipeline as the executor sees it — named
components in insertion order, connection edges as
((sender component, output socket), (receiver component, input socket)),
and the graph-level `max_loops_allowed`. -/
structure RunPipeline where
  components : List (String × RunComponent)
  connections : List ((String × String) × (String × String))
  maxLoopsAllowed : Nat

/-- Overwrite the entry for `k` in a socket-name→value mapping (Python
dict assignment). -/
def assocSet : List (String × Value) → String → Value → List (String × Value)
  | [], k, v => [(k, v)]
  | (k2, v2) :: rest, k, v =>
    if k2 = k then (k, v) :: rest else (k2, v2) :: assocSet rest k v

/-- Pointwise update of a name-indexed map. -/
def updateFn {α : Type} (f : String → α) (k : String) (v : α) : String → α :=
  fun n => if n = k then v else f n

/-- Modelled from the spec (§3 Run State): per-component pending inputs,
visit counters, the schedulable queue, and the accumulated external
outputs. -/
structure RunState where
  pending : String → List (String × Value)
  visits : String → Nat
  queue : List String
  results : String → List (String × Value)

/-- Run outcomes: normal termination, the `PipelineMaxLoops` and
`PipelineRuntimeError` failures (naming the offending component), and the
fuel marker the termination theorem proves unreachable. -/
inductive RunOutcome where
  | success : RunOutcome
  | maxLoops : String → RunOutcome
  | runtimeError : String → RunOutcome
  | outOfFuel : RunOutcome
deriving DecidableEq, Repr

/-- Modelled from the spec (§4.4 Ready determination): every mandatory
input socket has a value present in the pending inputs; optional sockets
are covered by their defaults. -/
def isReady (comp : RunComponent) (pend : List (String × Value)) : Bool :=
  comp.mandatoryInputs.all fun s => (pend.lookup s).isSome

/-- Modelled from the spec: the inputs handed to the execution operation —
every pending value, plus the default of each optional socket with no
pending value. -/
def collectInputs (comp : RunComponent) (pend : List (String × Value)) :
    List (String × Value) :=
  pend ++ comp.optionalInputs.filter fun d => (pend.lookup d.1).isNone

/-- First ready component in queue order. -/
def findReadyIn (p : RunPipeline) (st : RunState) :
    List String → Option (String × RunComponent)
  | [] => none
  | q :: rest =>
    match p.components.lookup q with
    | some comp =>
      if isReady comp (st.pending q) then some (q, comp) else findReadyIn p st rest
    | none => findReadyIn p st rest

/-- Modelled from the spec: pick one ready component — the first in the
schedulable queue (insertion order at start of run). -/
def findReady (p : RunPipeline) (st : RunState) : Option (String × RunComponent) :=
  findReadyIn p st st.queue

/-- The receivers wired to one output socket. -/
def receiversOf (p : RunPipeline) (comp out_name : String) : List (String × String) :=
  (p.connections.filter fun c => c.1.1 == comp && c.1.2 == out_name).map fun c => c.2

/-- Enqueue a component for a readiness check unless already queued. -/
def enqueue (queue : List String) (name : String) : List String :=
  if queue.contains name then queue else queue ++ [name]

/-- Deliver one routed value into a receiver's pending inputs
(overwriting any stale value for that socket) and schedule the receiver. -/
def deliver (rc rs : String) (v : Value) (st : RunState) : RunState :=
  { st with
    pending := updateFn st.pending rc (assocSet (st.pending rc) rs v),
    queue := enqueue st.queue rc }

def deliverAll (rcvs : List (String × String)) (v : Value) (st : RunState) : RunState :=
  rcvs.foldl (fun acc r => deliver r.1 r.2 v acc) st

/-- Modelled from the spec (§4.4 Execution step / Termination): route each
produced output value to every connected receiver; a value on an output
socket with no receivers is collected into the external result mapping. -/
def routeOutputs (p : RunPipeline) (name : String) :
    List (String × Value) → RunState → RunState
  | [], st => st
  | (out_name, v) :: rest, st =>
    let st2 :=
      match receiversOf p name out_name with
      | [] =>
        { st with
          results := updateFn st.results name (assocSet (st.results name) out_name v) }
      | rcvs => deliverAll rcvs v st
    routeOutputs p name rest st2

/-- The state after a successful execution of `name` (spec §4.4
Execution step): its pending inputs consumed, its visit counter
incremented, the component dequeued, and its outputs routed. -/
def afterExec (p : RunPipeline) (name : String) (outs : List (String × Value))
    (st : RunState) : RunState :=
  routeOutputs p name outs
    { pending := updateFn st.pending name [],
      visits := updateFn st.visits name (st.visits name + 1),
      queue := st.queue.filter fun q => q != name,
      results := st.results }

/-- Modelled from the spec (§4.4): the run loop.  Each iteration picks the
first ready component; a component about to exceed `max_loops_allowed`
aborts the run with the `PipelineMaxLoops` outcome naming it; an execution
returning a non-mapping value or raising aborts with
`PipelineRuntimeError`; otherwise the component's pending inputs are
consumed, its visit counter incremented, and its outputs routed.  The
fuel argument makes the recursion structural; the termination theorem
shows the `outOfFuel` marker is never reached from `RunPipeline.run`. -/
def runLoop (p : RunPipeline) : Nat → RunState → RunOutcome × RunState
  | 0, st => (.outOfFuel, st)
  | fuel + 1, st =>
    match findReady p st with
    | none => (.success, st)
    | some (name, comp) =>
      if p.maxLoopsAllowed ≤ st.visits name then (.maxLoops name, st)
      else
        match comp.exec (collectInputs comp (st.pending name)) with
        | .mapping outs => runLoop p fuel (afterExec p name outs st)
        | .nonMapping _ => (.runtimeError name, st)
        | .raised _ => (.runtimeError name, st)

/-- Modelled from the spec (§4.4 Initialization): visits reset to zero,
pending inputs seeded from the caller, all components queued in insertion
order; fuel suffices for `#components * max_loops_allowed` executions. -/
def RunPipeline.run (p : RunPipeline)
    (seed : List (String × List (String × Value))) : RunOutcome × RunState :=
  runLoop p (p.components.length * p.maxLoopsAllowed + 1)
    { pending := fun n => (seed.lookup n).getD [],
      visits := fun _ => 0,
      queue := p.components.map Prod.fst,
      results := fun _ => [] }

/-- Modelled from the spec (§4.4 Partial results / failures): only a
successful run yields the result mapping; failures abort the run with no
partial outputs. -/
def runResults (p : RunPipeline)
    (seed : List (String × List (String × Value))) :
    Option (String → List (String × Value)) :=
  match p.run seed with
  | (.success, st) => some st.results
  | _ => none

/-! ## Loop bounding and termination (C4) -/

/-- Sum of a per-component counter over a list of names. -/
def sumVisits (ns : List String) (f : String → Nat) : Nat :=
  ns.foldr (fun n acc => f n + acc) 0

theorem sumVisits_cons (n : String) (ns : List String) (f : String → Nat) :
    sumVisits (n :: ns) f = f n + sumVisits ns f := rfl

theorem sumVisits_le (ns : List String) (f : String → Nat) (M : Nat)
    (h : ∀ n, f n ≤ M) : sumVisits ns f ≤ ns.length * M := by
  induction ns with
  | nil => simp [sumVisits]
  | cons n rest ih =>
    rw [sumVisits_cons, List.length_cons]
    calc f n + sumVisits rest f ≤ M + rest.length * M := Nat.add_le_add (h n) ih
    _ = (rest.length + 1) * M := by ring

theorem sumVisits_mono (ns : List String) (f g : String → Nat)
    (h : ∀ n, f n ≤ g n) : sumVisits ns f ≤ sumVisits ns g := by
  induction ns with
  | nil => exact Nat.le_refl 0
  | cons n rest ih =>
    rw [sumVisits_cons, sumVisits_cons]
    exact Nat.add_le_add (h n) ih

theorem sumVisits_incr (ns : List String) (f g : String → Nat) (name : String)
    (hg : ∀ n, g n = if n = name then f n + 1 else f n) (hmem : name ∈ ns) :
    sumVisits ns f + 1 ≤ sumVisits ns g := by
  have hpoint : ∀ n, f n ≤ g n := by
    intro n
    rw [hg n]
    split <;> omega
  induction ns with
  | nil => cases hmem
  | cons n rest ih =>
    rw [sumVisits_cons, sumVisits_cons]
    rcases List.mem_cons.mp hmem with h1 | h2
    · have hgn : g n = f n + 1 := by rw [hg n, if_pos h1.symm]
      have := sumVisits_mono rest f g hpoint
      omega
    · have h3 := hpoint n
      have h4 := ih h2
      omega

theorem deliverAll_visits (rcvs : List (String × String)) (v : Value) (st : RunState) :
    (deliverAll rcvs v st).visits = st.visits := by
  induction rcvs generalizing st with
  | nil => rfl
  | cons r rest ih => exact ih (deliver r.1 r.2 v st)

theorem routeOutputs_visits (p : RunPipeline) (name : String)
    (outs : List (String × Value)) (st : RunState) :
    (routeOutputs p name outs st).visits = st.visits := by
  induction outs generalizing st with
  | nil => rfl
  | cons o rest ih =>
    obtain ⟨out_name, v⟩ := o
    simp only [routeOutputs]
    cases hrcv : receiversOf p name out_name with
    | nil => exact ih _
    | cons r rs => rw [ih _, deliverAll_visits]

theorem afterExec_visits (p : RunPipeline) (name : String)
    (outs : List (String × Value)) (st : RunState) :
    (afterExec p name outs st).visits = updateFn st.visits name (st.visits name + 1) := by
  unfold afterExec
  rw [routeOutputs_visits]

theorem afterExec_visits_le (p : RunPipeline) (name : String)
    (outs : List (String × Value)) (st : RunState)
    (hinv : ∀ c, st.visits c ≤ p.maxLoopsAllowed)
    (hmax : ¬ p.maxLoopsAllowed ≤ st.visits name) :
    ∀ c, (afterExec p name outs st).visits c ≤ p.maxLoopsAllowed := by
  intro c
  rw [afterExec_visits]
  unfold updateFn
  by_cases hc : c = name
  · rw [if_pos hc]
    omega
  · rw [if_neg hc]
    exact hinv c

theorem findReadyIn_lookup (p : RunPipeline) (st : RunState) (q : List String)
    (name : String) (comp : RunComponent)
    (h : findReadyIn p st q = some (name, comp)) :
    p.components.lookup name = some comp := by
  induction q with
  | nil => cases h
  | cons q2 rest ih =>
    simp only [findReadyIn] at h
    split at h
    next comp2 hlk =>
      split at h
      · injection h with hpr
        injection hpr with h1 h2
        subst h1; subst h2
        exact hlk
      · exact ih h
    next hlk => exact ih h

theorem lookup_mem_keys {α : Type} (l : List (String × α)) (k : String) (v : α)
    (h : l.lookup k = some v) : k ∈ l.map Prod.fst := by
  induction l with
  | nil => cases h
  | cons p rest ih =>
    obtain ⟨k2, v2⟩ := p
    simp only [List.lookup] at h
    split at h
    next hbeq =>
      have : k = k2 := by simpa using hbeq
      subst this
      exact List.mem_cons_self _ _
    next hbeq => exact List.mem_cons_of_mem _ (ih h)

theorem runLoop_visits_le (p : RunPipeline) (fuel : Nat) (st : RunState)
    (hinv : ∀ c, st.visits c ≤ p.maxLoopsAllowed) :
    ∀ c, (runLoop p fuel st).2.visits c ≤ p.maxLoopsAllowed := by
  induction fuel generalizing st with
  | zero => exact hinv
  | succ fuel ih =>
    intro c
    simp only [runLoop]
    split
    · exact hinv c
    next name comp hfr =>
      split
      · exact hinv c
      next hmax =>
        split
        next outs hex => exact ih (afterExec p name outs st) (afterExec_visits_le p name outs st hinv hmax) c
        next v hex => exact hinv c
        next msg hex => exact hinv c

theorem runLoop_maxLoops (p : RunPipeline) (fuel : Nat) (st : RunState)
    (hinv : ∀ c, st.visits c ≤ p.maxLoopsAllowed) (c : String) (st2 : RunState)
    (h : runLoop p fuel st = (RunOutcome.maxLoops c, st2)) :
    st2.visits c = p.maxLoopsAllowed ∧ c ∈ p.components.map Prod.fst := by
  induction fuel generalizing st with
  | zero =>
    injection h with h1 h2
    cases h1
  | succ fuel ih =>
    simp only [runLoop] at h
    split at h
    · injection h with h1 h2
      cases h1
    next name comp hfr =>
      split at h
      next hmax =>
        injection h with h1 h2
        injection h1 with hname
        constructor
        · rw [← h2, ← hname]
          exact Nat.le_antisymm (hinv name) hmax
        · rw [← hname]
          exact lookup_mem_keys _ _ _ (findReadyIn_lookup p st st.queue name comp hfr)
      next hmax =>
        split at h
        next outs hex =>
          exact ih (afterExec p name outs st) (afterExec_visits_le p name outs st hinv hmax) h
        next v hex =>
          injection h with h1 h2
          cases h1
        next msg hex =>
          injection h with h1 h2
          cases h1

theorem runLoop_ne_outOfFuel (p : RunPipeline) (fuel : Nat) (st : RunState)
    (hinv : ∀ c, st.visits c ≤ p.maxLoopsAllowed)
    (hfuel : p.components.length * p.maxLoopsAllowed <
      sumVisits (p.components.map Prod.fst) st.visits + fuel) :
    (runLoop p fuel st).1 ≠ RunOutcome.outOfFuel := by
  induction fuel generalizing st with
  | zero =>
    exfalso
    have hle := sumVisits_le (p.components.map Prod.fst) st.visits p.maxLoopsAllowed hinv
    rw [List.length_map] at hle
    omega
  | succ fuel ih =>
    simp only [runLoop]
    split
    · intro habs; cases habs
    next name comp hfr =>
      split
      · intro habs; cases habs
      next hmax =>
        split
        next outs hex =>
          refine ih (afterExec p name outs st)
            (afterExec_visits_le p name outs st hinv hmax) ?_
          have hmem : name ∈ p.components.map Prod.fst :=
            lookup_mem_keys _ _ _ (findReadyIn_lookup p st st.queue name comp hfr)
          have hincr := sumVisits_incr (p.components.map Prod.fst) st.visits
            (afterExec p name outs st).visits name ?_ hmem
          · omega
          · intro n
            rw [afterExec_visits]
            unfold updateFn
            by_cases hn : n = name
            · rw [if_pos hn, if_pos hn, hn]
            · rw [if_neg hn, if_neg hn]
        next v hex => intro habs; cases habs
        next msg hex => intro habs; cases habs

/-- **C4.** In every run no component executes more than
`max_loops_allowed` times; the run never exhausts its fuel (no infinite
looping), and when it aborts with the `PipelineMaxLoops` outcome the named
component is a real component whose visit counter has reached the
ceiling — executing it once more would have exceeded the bound. -/
theorem run_bounded_by_max_loops (p : RunPipeline)
    (seed : List (String × List (String × Value))) :
    ((p.run seed).1 ≠ RunOutcome.outOfFuel)
    ∧ (∀ c, (p.run seed).2.visits c ≤ p.maxLoopsAllowed)
    ∧ (∀ c, (p.run seed).1 = RunOutcome.maxLoops c →
        (p.run seed).2.visits c = p.maxLoopsAllowed ∧ c ∈ p.components.map Prod.fst) := by
  refine ⟨?_, ?_, ?_⟩
  · exact runLoop_ne_outOfFuel p _ _ (fun c => Nat.zero_le _) (by omega)
  · exact runLoop_visits_le p _ _ (fun c => Nat.zero_le _)
  · intro c hout
    have hpair : p.run seed = (RunOutcome.maxLoops c, (p.run seed).2) := by
      rw [← hout]
    exact runLoop_maxLoops p _ _ (fun c2 => Nat.zero_le _) c (p.run seed).2 hpair

/-- Fixture: the execution object of the feedback-cycle components — one
mandatory input `x`, one output `y`, always producing a value. -/
def loopComponent : RunComponent where
  mandatoryInputs := ["x"]
  optionalInputs := []
  outputs := ["y"]
  exec := fun _ => CompResult.mapping [("y", Value.intV 1)]

/-- Fixture: a two-node feedback cycle `a.y → b.x`, `b.y → a.x` with
`max_loops_allowed = 1`; the components keep re-triggering each other. -/
def loopPipeline : RunPipeline where
  components := [("a", loopComponent), ("b", loopComponent)]
  connections := [(("a", "y"), ("b", "x")), (("b", "y"), ("a", "x"))]
  maxLoopsAllowed := 1

/-- Witness for C4: the feedback cycle aborts with `PipelineMaxLoops`
naming `a`, whose visit counter equals the ceiling. -/
theorem run_bounded_by_max_loops_witness :
    (loopPipeline.run [("a", [("x", Value.intV 1)])]).2.visits "a" = 1 ∧
    "a" ∈ loopPipeline.components.map Prod.fst :=
  (run_bounded_by_max_loops loopPipeline [("a", [("x", Value.intV 1)])]).2.2 "a" rfl

/-! ## Malformed component results (C6) -/

theorem runLoop_broken_component (p : RunPipeline) (c : String)
    (comp : RunComponent) (v : Value)
    (hc : p.components.lookup c = some comp)
    (hbad : ∀ ins, comp.exec ins = CompResult.nonMapping v) :
    ∀ fuel st, (runLoop p fuel st).1 = RunOutcome.runtimeError c ∨
      (runLoop p fuel st).2.visits c = st.visits c := by
  intro fuel
  induction fuel with
  | zero => intro st; right; rfl
  | succ fuel ih =>
    intro st
    simp only [runLoop]
    split
    · right; rfl
    next name comp2 hfr =>
      split
      · right; rfl
      next hmax =>
        by_cases hname : name = c
        · have hcomp : comp2 = comp := by
            have h1 := findReadyIn_lookup p st st.queue name comp2 hfr
            rw [hname, hc] at h1
            injection h1 with h2
            exact h2.symm
          rw [hcomp, hbad]
          exact Or.inl (by rw [hname])
        · split
          next outs hex =>
            rcases ih (afterExec p name outs st) with h1 | h2
            · exact Or.inl h1
            · right
              rw [h2, afterExec_visits]
              unfold updateFn
              rw [if_neg (fun habs => hname habs.symm)]
          next v2 hex => right; rfl
          next msg hex => right; rfl

/-- **C6.** A ready component whose execution operation returns a value
that is not a name→value mapping makes the run fail with
`PipelineRuntimeError`: the run's outcome is the runtime error naming that
component unless the component never executed at all, and a runtime-error
outcome yields no result mapping, so the malformed value is neither
returned nor propagated. -/
theorem run_rejects_non_mapping (p : RunPipeline)
    (seed : List (String × List (String × Value)))
    (c : String) (comp : RunComponent) (v : Value)
    (hc : p.components.lookup c = some comp)
    (hbad : ∀ ins, comp.exec ins = CompResult.nonMapping v) :
    ((p.run seed).1 = RunOutcome.runtimeError c ∨ (p.run seed).2.visits c = 0)
    ∧ (∀ name, (p.run seed).1 = RunOutcome.runtimeError name →
        runResults p seed = none) := by
  constructor
  · exact runLoop_broken_component p c comp v hc hbad _ _
  · intro name hout
    unfold runResults
    cases hrun : p.run seed with
    | mk o st =>
      rw [hrun] at hout
      have ho : o = RunOutcome.runtimeError name := hout
      subst ho
      rfl

/-- Fixture: the contract-violating component of the malformed-result
test — it returns a raw value instead of a mapping. -/
def brokenComponent : RunComponent where
  mandatoryInputs := ["a"]
  optionalInputs := []
  outputs := ["b"]
  exec := fun _ => CompResult.nonMapping (Value.intV 1)

/-- Fixture: a pipeline holding only the broken component. -/
def brokenPipeline : RunPipeline where
  components := [("comp", brokenComponent)]
  connections := []
  maxLoopsAllowed := 10

/-- Witness for C6: running the broken component with a seeded input. -/
theorem run_rejects_non_mapping_witness :
    ((brokenPipeline.run [("comp", [("a", Value.intV 1)])]).1 =
        RunOutcome.runtimeError "comp" ∨
      (brokenPipeline.run [("comp", [("a", Value.intV 1)])]).2.visits "comp" = 0)
    ∧ (∀ name, (brokenPipeline.run [("comp", [("a", Value.intV 1)])]).1 =
        RunOutcome.runtimeError name →
        runResults brokenPipeline [("comp", [("a", Value.intV 1)])] = none) :=
  run_rejects_non_mapping brokenPipeline [("comp", [("a", Value.intV 1)])]
    "comp" brokenComponent (Value.intV 1) rfl (fun _ => rfl)

/-! ## Falsy values are delivered unchanged (C10) -/

/-- Fixture: a component with one mandatory input `x` and one output `y`
that always produces `out_val`. -/
def falsyComponent (out_val : Value) : RunComponent where
  mandatoryInputs := ["x"]
  optionalInputs := []
  outputs := ["y"]
  exec := fun _ => CompResult.mapping [("y", out_val)]

/-- Fixture: the falsy-connection pipeline — `a.y → b.x`; `a` produces
`u` on `y`, `b` produces `v` on `y`. -/
def falsyPipeline (u v : Value) : RunPipeline where
  components := [("a", falsyComponent u), ("b", falsyComponent v)]
  connections := [(("a", "y"), ("b", "x"))]
  maxLoopsAllowed := 100

/-- **C10.** Falsy output values are delivered and returned unchanged: in
the pipeline `a.y → b.x` where `b`'s execution returns `{y: v}`, running
with `{a: {x: 10}}` succeeds, `b` executes exactly once (so the value `u`
routed from `a` — `0` included — was delivered and made `b` ready), and
the final result maps `b.y` to exactly `v`: readiness and routing test
for presence of a value, never its truthiness. -/
theorem falsy_values_delivered (u v : Value) :
    ((falsyPipeline u v).run [("a", [("x", Value.intV 10)])]).1 = RunOutcome.success
    ∧ ((falsyPipeline u v).run [("a", [("x", Value.intV 10)])]).2.visits "b" = 1
    ∧ (((falsyPipeline u v).run [("a", [("x", Value.intV 10)])]).2.results "b").lookup "y" =
        some v :=
  ⟨rfl, rfl, rfl⟩

end Haystack
